import Mathlib

/-
Verification of the Gitlab2Graph pipeline engine (g2g).

Shallow embedding of the repository's core: the object-graph mapping layer
(g2g/models.py), the pipeline transform fragments that the specification's
claims are about (g2g/pipelines.py), the orchestrator (g2g/helpers.py:
process_pipelines, get_config) and the CLI driver loop (gitlab2graph.py).

Conventions of the embedding:
- Python attribute dictionaries become association lists `List (String × Value)`
  with first-hit lookup (Python dicts have unique keys; `dictInsert` keeps the
  original position on overwrite, as Python dict update does).
- A py2neo node is a `Node`: its primary label plus its property bag.  The
  graph database is a `Graph`: the list of stored nodes in creation order;
  `first()` on a match is the head of the filtered list.
- Raised Python exceptions become `Except.error`; the error branch of
  `NeoGraphObject.create` is taken before any store mutation in the source
  (models.py line 50-51), so an error result means nothing was written.
-/

inductive Value where
  | int : Int → Value
  | str : String → Value
  | bool : Bool → Value
  | null : Value
deriving DecidableEq, Repr

abbrev Dict := List (String × Value)

/-- First-hit lookup in an attribute dictionary (Python `d[k]` / `d.get(k)`). -/
def dictGet (k : String) : Dict → Option Value
  | [] => none
  | (a, v) :: t => if a = k then some v else dictGet k t

/-- Python dict insertion `d[k] = v`: overwrite the first occurrence in place
if the key is present (keeping its position), append otherwise. -/
def dictInsert : Dict → String → Value → Dict
  | [], k, v => [(k, v)]
  | (a, w) :: t, k, v =>
    if a = k then (k, v) :: t else (a, w) :: dictInsert t k v

/-- Python dict merge `{**d1, **d2}`: entries of `d2` override entries of `d1`. -/
def dictMerge (d1 d2 : Dict) : Dict :=
  d2.foldl (fun acc p => dictInsert acc p.1 p.2) d1

/-- A stored graph node: its primary label and its property bag. -/
structure Node where
  label : String
  props : Dict
deriving DecidableEq, Repr

/-- The graph database state: stored nodes in creation order. -/
structure Graph where
  nodes : List Node
deriving DecidableEq, Repr

/--
The schema of one `NeoGraphObject` subclass of g2g/models.py:
its `__primarylabel__`, `__primarykey__`, `__unique_constraints__`, the
attribute names declared with `Property(...)` and the attribute names declared
with `RelatedTo`/`RelatedFrom` (which `getattr` yields as `RelatedObjects`).
-/
structure EntityClass where
  primarylabel : String
  primarykey : String
  unique_constraints : List String
  properties : List String
  relationships : List String
deriving DecidableEq, Repr

def ProjectClass : EntityClass :=
  { primarylabel := "Project", primarykey := "id",
    unique_constraints := ["id"],
    properties := ["id", "name", "description", "default_branch", "created_at",
      "last_activity_at", "namespace_name"],
    relationships := ["has_milestone", "has_issue", "has_member", "has_merge",
      "has_note"] }

def UserClass : EntityClass :=
  { primarylabel := "User", primarykey := "id",
    unique_constraints := ["id", "username"],
    properties := ["id", "name", "username", "state"],
    relationships := ["belongs_to", "is_author", "is_merge_author",
      "was_issue_assigned", "was_merge_assigned", "is_issue_assigned",
      "is_merge_assigned", "closed_issue", "closed_merge", "merged_by",
      "commit_author", "committer", "note_author", "awarded_emoji",
      "approved_merge"] }

def LabelClass : EntityClass :=
  { primarylabel := "Label", primarykey := "id",
    unique_constraints := ["id"],
    properties := ["id", "name", "color", "description",
      "open_merge_requests_count", "open_issues_requests_count",
      "closed_issues_requests_count", "is_project_label"],
    relationships := ["belongs_to", "is_annotated", "is_merge_annotated"] }

def MilestoneClass : EntityClass :=
  { primarylabel := "Milestone", primarykey := "id",
    unique_constraints := ["id", "iid"],
    properties := ["id", "iid", "title", "description", "state", "created_at",
      "updated_at", "due_date", "start_date"],
    relationships := ["belongs_to", "is_annotated", "is_merge_annotated"] }

def NoteClass : EntityClass :=
  { primarylabel := "Note", primarykey := "id",
    unique_constraints := ["id"],
    properties := ["id", "type", "body", "attachment", "system", "resolvable",
      "created_at", "updated_at"],
    relationships := ["has_author", "at_issue", "at_merge", "belongs_to",
      "was_awarded_with"] }

def IssueClass : EntityClass :=
  { primarylabel := "Issue", primarykey := "id",
    unique_constraints := ["id", "iid"],
    properties := ["id", "iid", "title", "description", "state", "weight",
      "merge_requests_count", "created_at", "updated_at", "closed_at",
      "confidential", "due_date", "upvotes", "downvotes", "has_tasks",
      "task_status", "task_count", "task_completed"],
    relationships := ["has_label", "has_milestone", "belongs_to", "created_by",
      "was_assigned", "is_assigned", "closed_by", "is_merge_annotated",
      "has_note", "was_awarded_with"] }

def MergeRequestClass : EntityClass :=
  { primarylabel := "MergeRequest", primarykey := "id",
    unique_constraints := ["id", "iid"],
    properties := ["id", "iid", "title", "state", "description",
      "work_in_progress", "merge_when_pipeline_succeeds",
      "force_remove_source_branch", "should_remove_source_branch",
      "merge_status", "sha", "merge_commit_sha", "reference", "squash",
      "approvals_before_merge", "approvals_required", "approvals_left",
      "approved", "created_at", "updated_at", "merged_at", "closed_at",
      "target_branch", "source_branch", "user_notes_count", "upvotes",
      "downvotes", "task_count", "task_completed", "changes_count",
      "merge_error"],
    relationships := ["belongs_to", "has_label", "has_milestone", "created_by",
      "is_assigned", "was_assigned", "closed_by", "merged_by", "is_related",
      "has_merge_commit", "is_latest_commit", "has_note", "was_awarded_with",
      "approved_by", "has_change"] }

def CommitClass : EntityClass :=
  { primarylabel := "Commit", primarykey := "id",
    unique_constraints := ["id", "short_id"],
    properties := ["id", "short_id", "title", "message", "created_at",
      "author_name", "author_email", "authored_date", "committer_name",
      "committer_email", "committed_date"],
    relationships := ["belongs_to", "is_author", "is_committer", "has_parent",
      "is_parent", "is_merge_commit", "is_latest_commit"] }

def AwardEmojiClass : EntityClass :=
  { primarylabel := "AwardEmoji", primarykey := "id",
    unique_constraints := ["id"],
    properties := ["id", "name", "title", "message", "created_at",
      "updated_at"],
    relationships := ["was_awarded_by", "was_awarded_to_note",
      "was_awarded_to_issue", "was_awarded_to_merge"] }

def ChangeClass : EntityClass :=
  { primarylabel := "Change", primarykey := "id",
    unique_constraints := ["id"],
    properties := ["id", "old_path", "new_path", "a_mode", "b_mode",
      "new_file", "renamed_file", "deleted_file", "diff"],
    relationships := ["changed_in_merge"] }

/-- All concrete `NeoGraphObject` subclasses declared in g2g/models.py. -/
def allClasses : List EntityClass :=
  [ProjectClass, UserClass, LabelClass, MilestoneClass, NoteClass, IssueClass,
   MergeRequestClass, CommitClass, AwardEmojiClass, ChangeClass]

/-- The node built by `NeoGraphObject.create` (models.py lines 49-54): every
attribute entry whose name is a declared `Property` of the class is copied. -/
def createdNode (cls : EntityClass) (attributes : Dict) : Node :=
  { label := cls.primarylabel,
    props := attributes.filter (fun p => cls.properties.contains p.1) }

/--
`NeoGraphObject.create` (models.py lines 36-56): raise
`NeoGraphObjectException` if the primary key is absent from `attributes`;
otherwise build a node copying every attribute entry whose name is a declared
`Property` of the class, and store it.

At the node level the copy condition `hasattr(obj, attr) and not
isinstance(getattr(obj, attr), RelatedObjects)` keeps exactly the declared
scalar properties: a relationship attribute is a `RelatedObjects` instance and
is skipped, an undeclared attribute fails `hasattr` and is skipped, and an
attribute naming a method of the class is shadowed on the instance without
ever becoming a node property.  The error branch precedes `graph.create`, so
an error writes nothing.
-/
def NeoGraphObject.create (cls : EntityClass) (g : Graph) (attributes : Dict) :
    Except String (Node × Graph) :=
  if (dictGet cls.primarykey attributes).isSome then
    Except.ok (createdNode cls attributes,
      { nodes := g.nodes ++ [createdNode cls attributes] })
  else
    Except.error ("Primary " ++ cls.primarykey ++ " not in attributes")

/--
`NeoGraphObject.get` (models.py lines 58-74): match nodes of the class's
primary label, keep those whose properties equal every filter entry, and
return the first such node (or none).
-/
def NeoGraphObject.get (cls : EntityClass) (g : Graph) (filters : Dict) :
    Option Node :=
  (g.nodes.filter (fun n =>
    decide (n.label = cls.primarylabel ∧
      ∀ kv ∈ filters, dictGet kv.1 n.props = some kv.2))).head?

/--
`NeoGraphObject.get_or_create` (models.py lines 76-98): raise if `pk` is
`None`; otherwise look the node up by primary key and, when absent, create it
from `{cls.__primarykey__: pk, **attributes}` (just the primary key when no
attributes are given).
-/
def NeoGraphObject.get_or_create (cls : EntityClass) (g : Graph) :
    Option Value → Option Dict → Except String (Node × Graph)
  | none, _ => Except.error "Primary key missing"
  | some pkv, none =>
    match NeoGraphObject.get cls g [(cls.primarykey, pkv)] with
    | some obj => Except.ok (obj, g)
    | none => NeoGraphObject.create cls g [(cls.primarykey, pkv)]
  | some pkv, some a =>
    match NeoGraphObject.get cls g [(cls.primarykey, pkv)] with
    | some obj => Except.ok (obj, g)
    | none =>
      NeoGraphObject.create cls g (dictMerge [(cls.primarykey, pkv)] a)

/-
Orchestrator (g2g/helpers.py) and CLI driver loop (gitlab2graph.py).

`process_pipelines` only sequences calls on the pipeline instances; the
embedding records the sequence of `request_data` / `transform_data` /
`commit_data` calls as an event trace.
-/

inductive Phase where
  | request : Phase
  | transform : Phase
  | commit : Phase
deriving DecidableEq, Repr

structure Event where
  pipe : String
  phase : Phase
deriving DecidableEq, Repr

/-- The `PIPELINES` tuple of g2g/pipelines.py lines 20-27, in declaration
order. -/
def PIPELINES : List String :=
  ["UserPipeline", "LabelPipeline", "MilestonePipeline", "IssuePipeline",
   "MergeRequestPipeline", "CommitPipeline"]

/--
`process_pipelines` (helpers.py lines 82-101): first loop calls
`request_data` on every pipeline in order, second loop calls `transform_data`
immediately followed by `commit_data` on every pipeline in the same order.
`get_pipelines` builds the pipeline list by mapping over `PIPELINES`
(helpers.py line 78), so the order is the declaration order.
-/
def process_pipelines (pipes : List String) : List Event :=
  pipes.map (fun p => { pipe := p, phase := Phase.request }) ++
    (pipes.map (fun p =>
      [({ pipe := p, phase := Phase.transform } : Event),
       { pipe := p, phase := Phase.commit }])).flatten

/-- The event trace of one configuration file run (`process_pipelines`
applied to the pipelines built from `PIPELINES`). -/
def process_config_trace : List Event :=
  process_pipelines PIPELINES

/--
A configuration file as the validation in helpers.py sees it: whether the
file exists, and the sections with their parameter names.
-/
structure ConfigFile where
  present : Bool
  sections : List (String × List String)
deriving DecidableEq, Repr

/-- `VALID_CONFIG` (helpers.py lines 19-34): the required sections and their
required parameters. -/
def VALID_CONFIG : List (String × List String) :=
  [("GITLAB", ["token"]),
   ("NEO4J", ["hostname", "protocol", "port", "db", "user", "password"]),
   ("PROJECT", ["project_id"])]

def hasSection (c : ConfigFile) (s : String) : Bool :=
  c.sections.any (fun p => p.1 = s)

def hasParam (c : ConfigFile) (s param : String) : Bool :=
  c.sections.any (fun q => q.1 = s ∧ param ∈ q.2)

/-- The validation loop of `get_config` (helpers.py lines 55-60): for each
required section in order, raise if the section is missing, then raise on the
first missing parameter of that section. -/
def validate_config (c : ConfigFile) : List (String × List String) →
    Except String ConfigFile
  | [] => Except.ok c
  | (s, params) :: rest =>
    if hasSection c s then
      match params.find? (fun p => ! hasParam c s p) with
      | some p =>
        Except.error ("Parameter " ++ p ++ " in section " ++ s ++ " is missing")
      | none => validate_config c rest
    else
      Except.error ("Section " ++ s ++ " is missing")

/-- `get_config` (helpers.py lines 41-62): raise if the file does not exist,
then validate the required sections and parameters; return the parsed
configuration on success.  Raised `ConfigurationException`s propagate to the
caller. -/
def get_config (c : ConfigFile) : Except String ConfigFile :=
  if c.present then validate_config c VALID_CONFIG
  else Except.error "Configuration not found"

/--
The `__main__` loop of gitlab2graph.py (lines 29-32): for each configuration
file in order, `get_config` then `process_pipelines`.  A raised
`ConfigurationException` is not caught, so it aborts the whole loop: the
result is the list of per-configuration event traces of the configurations
that were processed, together with the error that stopped the run, if any.
-/
def run_main : List ConfigFile → List (List Event) × Option String
  | [] => ([], none)
  | c :: rest =>
    match get_config c with
    | Except.error e => ([], some e)
    | Except.ok _ =>
      let r := run_main rest
      (process_config_trace :: r.1, r.2)

/-
MergeRequestPipeline.transform_data, issue-from-branch fragment
(g2g/pipelines.py lines 379-385).
-/

/-- Value of a digit string under Python `int(...)`. -/
def digitsToInt (ds : List Char) : Int :=
  ds.foldl (fun n c => n * 10 + ((c.toNat : Int) - 48)) 0

/-- Python `re` semantics of the trailing `.+$` of the pattern: one or more
characters, where `.` matches any character except a newline and `$` matches
at the end of the string or just before one final trailing newline. -/
def matchesDotPlusEnd (r : List Char) : Bool :=
  let core := if r.getLast? = some '\n' then r.dropLast else r
  !core.isEmpty && core.all (fun c => c ≠ '\n')

/--
The branch-name pattern of pipelines.py line 380: the anchored regular
expression whose group 1 is one or more digits followed by a dash and at
least one further character.  Since a digit can never match the dash, the
greedy group is exactly the maximal digit prefix, so the pattern matches
exactly when that prefix is nonempty, is followed by a dash, and the dash is
followed by at least one character.  Returns `int(m.group(1))` (pipelines.py
lines 381-383) when the pattern matches.
-/
def branch_issue_iid (source_branch : String) : Option Int :=
  let cs := source_branch.toList
  let d := cs.takeWhile Char.isDigit
  let rest := cs.dropWhile Char.isDigit
  if d.isEmpty then none
  else
    match rest with
    | '-' :: r => if matchesDotPlusEnd r then some (digitsToInt d) else none
    | _ => none

/--
The lookup of pipelines.py lines 380-385: when the branch name matches, look
the Issue up by `iid`; the edge target, if any.
-/
def mr_issue_from_branch (g : Graph) (source_branch : String) : Option Node :=
  match branch_issue_iid source_branch with
  | none => none
  | some iid => NeoGraphObject.get IssueClass g [("iid", Value.int iid)]

/-- `RelatedObjects.update` on an in-memory relationship set: add the target
if it is not yet present. -/
def updateRel (rel : List Node) (n : Node) : List Node :=
  if n ∈ rel then rel else rel ++ [n]

/-- The effect of pipelines.py lines 379-385 on the merge request model's
`is_related` set: update it with the resolved issue when the branch pattern
matched and the issue exists, leave it alone otherwise.  No operation in this
fragment can raise. -/
def mr_branch_issue_step (g : Graph) (is_related : List Node)
    (source_branch : String) : List Node :=
  match mr_issue_from_branch g source_branch with
  | some issue => updateRel is_related issue
  | none => is_related

/-
CommitPipeline (g2g/pipelines.py lines 426-472): `_find_user` and the
per-commit part of `transform_data`.
-/

/-- One step of `split_ws`: a whitespace character closes the current token,
any other character extends it. -/
def split_ws_step (c : Char) (acc : List (List Char)) : List (List Char) :=
  if c.isWhitespace then [] :: acc
  else
    match acc with
    | [] => [[c]]
    | t :: ts => (c :: t) :: ts

/-- Python `str.split()` (no separator argument): split on runs of
whitespace, discarding empty tokens. -/
def split_ws (cs : List Char) : List (List Char) :=
  (cs.foldr split_ws_step []).filter (fun t => !t.isEmpty)

/-- Does this node's `name` property contain the needle as a substring?
This is the `name__contains` condition handed to the node matcher; a node
without a string `name` property does not match. -/
def name_contains (n : Node) (needle : String) : Bool :=
  match dictGet "name" n.props with
  | some (Value.str h) => decide (List.IsInfix needle.toList h.toList)
  | _ => false

/--
`NeoGraphObject.find` as called by `CommitPipeline._find_user`
(models.py lines 28-34, pipelines.py lines 439 and 442):
`matcher.match(name__contains=...)` on a plain `NodeMatcher` carries no label
argument, so it matches the first stored node of ANY label whose `name`
property contains the needle — the class on which `find` is invoked is not
used in its body.
-/
def NeoGraphObject.find (g : Graph) (needle : String) : Option Node :=
  g.nodes.find? (fun n => name_contains n needle)

/-- The possible outcomes of `CommitPipeline._find_user`. -/
inductive FindUserResult where
  | found : Node → FindUserResult
  | notFound : FindUserResult
  | indexError : FindUserResult
deriving DecidableEq, Repr

/--
`CommitPipeline._find_user` (pipelines.py lines 436-445), together with the
number of matcher queries it issued.  `None` input returns immediately with
no query.  Otherwise the full name is looked up by containment; on a miss,
`name.split()[-1]` takes the last whitespace-separated token — which raises
`IndexError` when the split yields no tokens — and the surname is looked up
by containment.
-/
def find_user (g : Graph) (name : Option String) : FindUserResult × Nat :=
  match name with
  | none => (FindUserResult.notFound, 0)
  | some s =>
    match NeoGraphObject.find g s with
    | some node => (FindUserResult.found node, 1)
    | none =>
      match (split_ws s.toList).getLast? with
      | none => (FindUserResult.indexError, 1)
      | some surname =>
        match NeoGraphObject.find g (String.mk surname) with
        | some node => (FindUserResult.found node, 2)
        | none => (FindUserResult.notFound, 2)

/-- `commit.attributes.get(key)` handed to `_find_user`: the attribute's
string value, if the attribute is present (author and committer names are
strings when present). -/
def asStr : Option Value → Option String
  | some (Value.str s) => some s
  | _ => none

/-- The edge set produced by the author (or committer) resolution of
pipelines.py lines 455-463: a raised `IndexError` from `_find_user`
propagates; a found node is attached; a miss attaches nothing. -/
def author_edges (g : Graph) (namev : Option Value) :
    Except String (List Node) :=
  match (find_user g (asStr namev)).1 with
  | FindUserResult.indexError =>
    Except.error "IndexError: list index out of range"
  | FindUserResult.found n => Except.ok (updateRel [] n)
  | FindUserResult.notFound => Except.ok []

/-- The in-memory commit model accumulated by `CommitPipeline.transform_data`
for one commit: the created node and its relationship sets. -/
structure CommitModel where
  node : Node
  is_author : List Node
  is_committer : List Node
  has_parent : List Node
deriving DecidableEq, Repr

/--
One iteration of `CommitPipeline.transform_data` (pipelines.py lines
451-468): create the Commit node from the record's attributes, resolve the
author and the committer by fuzzy name match, and resolve or create each
parent commit by sha via `get_or_create`.  `parent_ids` is the record's
`parent_ids` list attribute; the scalar attributes are in `attrs`.
-/
def commit_transform_one (g : Graph) (attrs : Dict) (parent_ids : List Value) :
    Except String (CommitModel × Graph) := do
  let (cnode, g1) ← NeoGraphObject.create CommitClass g attrs
  let isAuthor ← author_edges g1 (dictGet "author_name" attrs)
  let isCommitter ← author_edges g1 (dictGet "committer_name" attrs)
  let (parents, g2) ← parent_ids.foldlM
    (fun (acc : List Node × Graph) pid => do
      let (pc, g3) ← NeoGraphObject.get_or_create CommitClass acc.2
        (some pid) none
      pure (updateRel acc.1 pc, g3))
    ([], g1)
  pure ({ node := cnode, is_author := isAuthor, is_committer := isCommitter,
          has_parent := parents }, g2)

/-
Dictionary lemmas.
-/

theorem dictGet_filter_of_pred_true (Q : String × Value → Bool) (k : String)
    (hQ : ∀ v, Q (k, v) = true) :
    ∀ d : Dict, dictGet k (d.filter Q) = dictGet k d
  | [] => rfl
  | (a, w) :: t => by
    by_cases hak : a = k
    · subst hak
      simp [List.filter_cons, hQ w, dictGet]
    · cases hQa : Q (a, w) with
      | true =>
        simp [List.filter_cons, hQa, dictGet, hak,
          dictGet_filter_of_pred_true Q k hQ t]
      | false =>
        simp [List.filter_cons, hQa, dictGet, hak,
          dictGet_filter_of_pred_true Q k hQ t]

theorem dictGet_filter_of_pred_false (Q : String × Value → Bool) (k : String)
    (hQ : ∀ v, Q (k, v) = false) :
    ∀ d : Dict, dictGet k (d.filter Q) = none
  | [] => rfl
  | (a, w) :: t => by
    by_cases hak : a = k
    · subst hak
      simp [List.filter_cons, hQ w, dictGet,
        dictGet_filter_of_pred_false Q a hQ t]
    · cases hQa : Q (a, w) with
      | true =>
        simp [List.filter_cons, hQa, dictGet, hak,
          dictGet_filter_of_pred_false Q k hQ t]
      | false =>
        simp [List.filter_cons, hQa, dictGet, hak,
          dictGet_filter_of_pred_false Q k hQ t]

theorem dictGet_eq_none_of_not_mem (k : String) :
    ∀ d : Dict, k ∉ d.map Prod.fst → dictGet k d = none
  | [], _ => rfl
  | (a, w) :: t, h => by
    have hak : a ≠ k := by
      intro e
      exact h (by simp [e])
    have ht : k ∉ t.map Prod.fst := by
      intro hm
      exact h (by simp [hm])
    simp [dictGet, hak, dictGet_eq_none_of_not_mem k t ht]

theorem dictGet_dictInsert_self (k : String) (v : Value) :
    ∀ d : Dict, dictGet k (dictInsert d k v) = some v
  | [] => by simp [dictInsert, dictGet]
  | (a, w) :: t => by
    by_cases hak : a = k
    · simp [dictInsert, hak, dictGet]
    · simp [dictInsert, hak, dictGet, dictGet_dictInsert_self k v t]

theorem dictGet_dictInsert_ne (q k : String) (v : Value) (hqk : q ≠ k) :
    ∀ d : Dict, dictGet q (dictInsert d k v) = dictGet q d
  | [] => by simp [dictInsert, dictGet, Ne.symm hqk]
  | (a, w) :: t => by
    by_cases hak : a = k
    · subst hak
      simp [dictInsert, dictGet, Ne.symm hqk]
    · by_cases haq : a = q
      · subst haq
        simp [dictInsert, hak, dictGet]
      · simp [dictInsert, hak, dictGet, haq,
          dictGet_dictInsert_ne q k v hqk t]

theorem dictMerge_cons (d : Dict) (a : String) (b : Value) (t : Dict) :
    dictMerge d ((a, b) :: t) = dictMerge (dictInsert d a b) t := rfl

theorem dictGet_dictMerge_none (k : String) :
    ∀ (d2 d : Dict), dictGet k d2 = none →
      dictGet k (dictMerge d d2) = dictGet k d
  | [], _, _ => rfl
  | (a, b) :: t, d, h => by
    have hak : a ≠ k := by
      intro e
      simp [dictGet, e] at h
    have ht : dictGet k t = none := by
      simpa [dictGet, hak] using h
    rw [dictMerge_cons, dictGet_dictMerge_none k t (dictInsert d a b) ht,
      dictGet_dictInsert_ne k a b (Ne.symm hak) d]

theorem dictGet_dictMerge_some (k : String) (v : Value) :
    ∀ (d2 d : Dict), (d2.map Prod.fst).Nodup → dictGet k d2 = some v →
      dictGet k (dictMerge d d2) = some v
  | [], _, _, h => by simp [dictGet] at h
  | (a, b) :: t, d, hnd, h => by
    rw [List.map_cons, List.nodup_cons] at hnd
    by_cases hak : a = k
    · subst hak
      have hb : b = v := by simpa [dictGet] using h
      subst hb
      have ht : dictGet a t = none := dictGet_eq_none_of_not_mem a t hnd.1
      rw [dictMerge_cons, dictGet_dictMerge_none a t (dictInsert d a b) ht,
        dictGet_dictInsert_self a b d]
    · have ht : dictGet k t = some v := by simpa [dictGet, hak] using h
      rw [dictMerge_cons]
      exact dictGet_dictMerge_some k v t (dictInsert d a b) hnd.2 ht

/-
Schema facts shared by several claims: in every concrete entity class the
primary key is a declared property, and property names are disjoint from
relationship names.
-/

theorem primarykey_mem_properties (cls : EntityClass)
    (hcls : cls ∈ allClasses) :
    cls.properties.contains cls.primarykey = true := by
  simp only [allClasses, List.mem_cons, List.not_mem_nil, or_false] at hcls
  rcases hcls with rfl | rfl | rfl | rfl | rfl | rfl | rfl | rfl | rfl | rfl <;>
    decide

theorem properties_relationships_disjoint (cls : EntityClass)
    (hcls : cls ∈ allClasses) :
    ∀ k ∈ cls.relationships, cls.properties.contains k = false := by
  simp only [allClasses, List.mem_cons, List.not_mem_nil, or_false] at hcls
  rcases hcls with rfl | rfl | rfl | rfl | rfl | rfl | rfl | rfl | rfl | rfl <;>
    decide

/-- After a fresh node matching the filters is appended to a graph in which
nothing matched, `get` returns exactly that node. -/
theorem get_append_matching (cls : EntityClass) (g : Graph) (filters : Dict)
    (n : Node) (hnone : NeoGraphObject.get cls g filters = none)
    (hlabel : n.label = cls.primarylabel)
    (hprops : ∀ kv ∈ filters, dictGet kv.1 n.props = some kv.2) :
    NeoGraphObject.get cls ⟨g.nodes ++ [n]⟩ filters = some n := by
  unfold NeoGraphObject.get at hnone ⊢
  rw [List.head?_eq_none_iff] at hnone
  have hpred :
      decide (n.label = cls.primarylabel ∧
        ∀ kv ∈ filters, dictGet kv.1 n.props = some kv.2) = true :=
    decide_eq_true ⟨hlabel, hprops⟩
  rw [List.filter_append, hnone, List.nil_append, List.filter_cons, hpred]
  rfl

/--
C1: for every entity type and primary-key value, calling
`get_or_create(type, k)` a second time — on the graph state left by the
first call and with no attributes argument — returns the same node as the
first call: the second call is a pure lookup, leaves the graph unchanged,
and creates no second node with key `k`.
-/
theorem get_or_create_idempotent (cls : EntityClass) (hcls : cls ∈ allClasses)
    (g g1 : Graph) (pkv : Value) (n : Node)
    (h : NeoGraphObject.get_or_create cls g (some pkv) none =
      Except.ok (n, g1)) :
    NeoGraphObject.get_or_create cls g1 (some pkv) none =
      Except.ok (n, g1) := by
  have hpk : cls.properties.contains cls.primarykey = true :=
    primarykey_mem_properties cls hcls
  simp only [NeoGraphObject.get_or_create] at h ⊢
  cases hget : NeoGraphObject.get cls g [(cls.primarykey, pkv)] with
  | some obj =>
    rw [hget] at h
    simp only [Except.ok.injEq, Prod.mk.injEq] at h
    obtain ⟨hn, hg⟩ := h
    subst hn
    subst hg
    rw [hget]
  | none =>
    rw [hget] at h
    have hsome : dictGet cls.primarykey [(cls.primarykey, pkv)] = some pkv := by
      simp [dictGet]
    rw [NeoGraphObject.create, hsome] at h
    simp only [Option.isSome_some, if_true, Except.ok.injEq,
      Prod.mk.injEq] at h
    obtain ⟨hn, hg⟩ := h
    have hmem : cls.primarykey ∈ cls.properties := by
      simpa using hpk
    have hprops : (createdNode cls [(cls.primarykey, pkv)]).props =
        [(cls.primarykey, pkv)] := by
      simp [createdNode, List.filter_cons, hmem]
    have hfind : NeoGraphObject.get cls g1 [(cls.primarykey, pkv)] =
        some n := by
      rw [← hg, ← hn]
      exact get_append_matching cls g [(cls.primarykey, pkv)]
        (createdNode cls [(cls.primarykey, pkv)]) hget rfl
        (by
          intro kv hkv
          rw [List.mem_singleton] at hkv
          subst hkv
          rw [hprops]
          simp [dictGet])
    rw [hfind]

/-- Witness for C1: a User created under key 7 on the empty graph is returned
unchanged, with an unchanged graph, by a second `get_or_create` call. -/
theorem get_or_create_idempotent_witness :
    NeoGraphObject.get_or_create UserClass
      ⟨[{ label := "User", props := [("id", Value.int 7)] }]⟩
      (some (Value.int 7)) none =
      Except.ok ({ label := "User", props := [("id", Value.int 7)] },
        ⟨[{ label := "User", props := [("id", Value.int 7)] }]⟩) :=
  get_or_create_idempotent UserClass (by decide) ⟨[]⟩
    ⟨[{ label := "User", props := [("id", Value.int 7)] }]⟩ (Value.int 7)
    { label := "User", props := [("id", Value.int 7)] } (by rfl)

/--
C2: for every entity type and attributes dictionary, `create` with the
type's primary-key property absent from the dictionary raises
`NeoGraphObjectException` (before anything is written), and with it present
it succeeds and the new node's primary-key property equals the supplied
value.
-/
theorem create_requires_primarykey (cls : EntityClass)
    (hcls : cls ∈ allClasses) (g : Graph) (attributes : Dict) :
    (dictGet cls.primarykey attributes = none →
      NeoGraphObject.create cls g attributes =
        Except.error ("Primary " ++ cls.primarykey ++ " not in attributes")) ∧
    (∀ v, dictGet cls.primarykey attributes = some v →
      NeoGraphObject.create cls g attributes =
        Except.ok (createdNode cls attributes,
          ⟨g.nodes ++ [createdNode cls attributes]⟩) ∧
      dictGet cls.primarykey (createdNode cls attributes).props = some v) := by
  have hpk : cls.properties.contains cls.primarykey = true :=
    primarykey_mem_properties cls hcls
  constructor
  · intro hnone
    simp [NeoGraphObject.create, hnone]
  · intro v hv
    refine ⟨by simp [NeoGraphObject.create, hv], ?_⟩
    unfold createdNode
    rw [dictGet_filter_of_pred_true (fun p => cls.properties.contains p.1)
      cls.primarykey (fun _ => hpk) attributes]
    exact hv

/-- Witness for C2: on `UserClass`, attributes without `id` fail, and
attributes with `id = 1` produce a node whose `id` property is 1. -/
theorem create_requires_primarykey_witness :
    (NeoGraphObject.create UserClass ⟨[]⟩ [("name", Value.str "x")] =
      Except.error "Primary id not in attributes") ∧
    (NeoGraphObject.create UserClass ⟨[]⟩ [("id", Value.int 1)] =
      Except.ok (createdNode UserClass [("id", Value.int 1)],
        ⟨[createdNode UserClass [("id", Value.int 1)]]⟩) ∧
     dictGet "id" (createdNode UserClass [("id", Value.int 1)]).props =
       some (Value.int 1)) :=
  ⟨(create_requires_primarykey UserClass (by decide) ⟨[]⟩
      [("name", Value.str "x")]).1 (by rfl),
   (create_requires_primarykey UserClass (by decide) ⟨[]⟩
      [("id", Value.int 1)]).2 (Value.int 1) (by rfl)⟩

/--
C8: `create` copies onto the new node exactly the attribute entries naming a
declared property of the type: an entry naming a relationship-typed field is
skipped even when present, an entry naming no declared field is ignored, and
a declared property absent from the dictionary stays unset.
-/
theorem create_copies_exactly_declared (cls : EntityClass)
    (hcls : cls ∈ allClasses) (g : Graph) (attributes : Dict) (v : Value)
    (hv : dictGet cls.primarykey attributes = some v) :
    NeoGraphObject.create cls g attributes =
      Except.ok (createdNode cls attributes,
        ⟨g.nodes ++ [createdNode cls attributes]⟩) ∧
    (∀ k, dictGet k (createdNode cls attributes).props =
      if cls.properties.contains k then dictGet k attributes else none) ∧
    (∀ k, k ∈ cls.relationships →
      dictGet k (createdNode cls attributes).props = none) := by
  have hcopy : ∀ k, dictGet k (createdNode cls attributes).props =
      if cls.properties.contains k then dictGet k attributes else none := by
    intro k
    unfold createdNode
    cases hk : cls.properties.contains k with
    | true =>
      rw [if_pos rfl]
      exact dictGet_filter_of_pred_true (fun p => cls.properties.contains p.1)
        k (fun _ => hk) attributes
    | false =>
      rw [if_neg (by simp)]
      exact dictGet_filter_of_pred_false (fun p => cls.properties.contains p.1)
        k (fun _ => hk) attributes
  refine ⟨by simp [NeoGraphObject.create, hv], hcopy, ?_⟩
  intro k hk
  rw [hcopy k, properties_relationships_disjoint cls hcls k hk]
  simp

/-- Witness for C8: creating a User from a dictionary holding the declared
property `id`, the relationship name `belongs_to` and the undeclared field
`web_url` copies only `id`; the declared but absent `name` stays unset. -/
theorem create_copies_exactly_declared_witness :
    dictGet "belongs_to" (createdNode UserClass
      [("id", Value.int 1), ("belongs_to", Value.str "p"),
       ("web_url", Value.str "u")]).props = none ∧
    dictGet "web_url" (createdNode UserClass
      [("id", Value.int 1), ("belongs_to", Value.str "p"),
       ("web_url", Value.str "u")]).props = none ∧
    dictGet "name" (createdNode UserClass
      [("id", Value.int 1), ("belongs_to", Value.str "p"),
       ("web_url", Value.str "u")]).props = none ∧
    dictGet "id" (createdNode UserClass
      [("id", Value.int 1), ("belongs_to", Value.str "p"),
       ("web_url", Value.str "u")]).props = some (Value.int 1) :=
  ⟨(create_copies_exactly_declared UserClass (by decide) ⟨[]⟩
      [("id", Value.int 1), ("belongs_to", Value.str "p"),
       ("web_url", Value.str "u")] (Value.int 1) (by rfl)).2.2
      "belongs_to" (by decide),
   (create_copies_exactly_declared UserClass (by decide) ⟨[]⟩
      [("id", Value.int 1), ("belongs_to", Value.str "p"),
       ("web_url", Value.str "u")] (Value.int 1) (by rfl)).2.1 "web_url",
   (create_copies_exactly_declared UserClass (by decide) ⟨[]⟩
      [("id", Value.int 1), ("belongs_to", Value.str "p"),
       ("web_url", Value.str "u")] (Value.int 1) (by rfl)).2.1 "name",
   (create_copies_exactly_declared UserClass (by decide) ⟨[]⟩
      [("id", Value.int 1), ("belongs_to", Value.str "p"),
       ("web_url", Value.str "u")] (Value.int 1) (by rfl)).2.1 "id"⟩

/--
C9: when `get_or_create(type, pk, attributes)` creates a new node and the
attributes dictionary itself contains the type's primary-key property, the
merge `{primarykey: pk, **attributes}` lets the attributes entry override
the `pk` argument: the created node's primary-key property equals
`attributes[primarykey]`, which may differ from the `pk` argument used for
the lookup.
-/
theorem get_or_create_attributes_override (cls : EntityClass)
    (hcls : cls ∈ allClasses) (g : Graph) (pkv w : Value) (attributes : Dict)
    (hnodup : (attributes.map Prod.fst).Nodup)
    (hget : NeoGraphObject.get cls g [(cls.primarykey, pkv)] = none)
    (hw : dictGet cls.primarykey attributes = some w) :
    NeoGraphObject.get_or_create cls g (some pkv) (some attributes) =
      Except.ok
        (createdNode cls (dictMerge [(cls.primarykey, pkv)] attributes),
         ⟨g.nodes ++
           [createdNode cls (dictMerge [(cls.primarykey, pkv)] attributes)]⟩) ∧
    dictGet cls.primarykey
      (createdNode cls (dictMerge [(cls.primarykey, pkv)] attributes)).props =
      some w := by
  have hpk : cls.properties.contains cls.primarykey = true :=
    primarykey_mem_properties cls hcls
  have hmerged : dictGet cls.primarykey
      (dictMerge [(cls.primarykey, pkv)] attributes) = some w :=
    dictGet_dictMerge_some cls.primarykey w attributes
      [(cls.primarykey, pkv)] hnodup hw
  constructor
  · simp [NeoGraphObject.get_or_create, hget, NeoGraphObject.create, hmerged]
  · unfold createdNode
    rw [dictGet_filter_of_pred_true (fun p => cls.properties.contains p.1)
      cls.primarykey (fun _ => hpk)]
    exact hmerged

/-- Witness for C9: `get_or_create` under pk argument 3 with attributes
carrying `id = 5` creates a node whose `id` property is 5, not 3. -/
theorem get_or_create_attributes_override_witness :
    NeoGraphObject.get_or_create UserClass ⟨[]⟩ (some (Value.int 3))
      (some [("id", Value.int 5), ("name", Value.str "n")]) =
      Except.ok
        (createdNode UserClass (dictMerge [("id", Value.int 3)]
          [("id", Value.int 5), ("name", Value.str "n")]),
         ⟨[createdNode UserClass (dictMerge [("id", Value.int 3)]
           [("id", Value.int 5), ("name", Value.str "n")])]⟩) ∧
    dictGet "id" (createdNode UserClass (dictMerge [("id", Value.int 3)]
      [("id", Value.int 5), ("name", Value.str "n")])).props =
      some (Value.int 5) :=
  get_or_create_attributes_override UserClass (by decide) ⟨[]⟩
    (Value.int 3) (Value.int 5) [("id", Value.int 5), ("name", Value.str "n")]
    (by decide) (by rfl) (by rfl)

/--
C3: for a configuration listing the six pipeline types, `process_pipelines`
calls `request_data` on all six pipelines in declaration order (User, Label,
Milestone, Issue, MergeRequest, Commit) before any `transform_data` or
`commit_data` call, and then, for each pipeline in the same order, calls
`transform_data` immediately followed by `commit_data` before moving on.
The event trace is exactly this sequence (the configuration object plays no
role in the ordering: the pipeline list is built from `PIPELINES`).
-/
theorem process_pipelines_order :
    process_pipelines PIPELINES =
      [{ pipe := "UserPipeline", phase := Phase.request },
       { pipe := "LabelPipeline", phase := Phase.request },
       { pipe := "MilestonePipeline", phase := Phase.request },
       { pipe := "IssuePipeline", phase := Phase.request },
       { pipe := "MergeRequestPipeline", phase := Phase.request },
       { pipe := "CommitPipeline", phase := Phase.request },
       { pipe := "UserPipeline", phase := Phase.transform },
       { pipe := "UserPipeline", phase := Phase.commit },
       { pipe := "LabelPipeline", phase := Phase.transform },
       { pipe := "LabelPipeline", phase := Phase.commit },
       { pipe := "MilestonePipeline", phase := Phase.transform },
       { pipe := "MilestonePipeline", phase := Phase.commit },
       { pipe := "IssuePipeline", phase := Phase.transform },
       { pipe := "IssuePipeline", phase := Phase.commit },
       { pipe := "MergeRequestPipeline", phase := Phase.transform },
       { pipe := "MergeRequestPipeline", phase := Phase.commit },
       { pipe := "CommitPipeline", phase := Phase.transform },
       { pipe := "CommitPipeline", phase := Phase.commit }] := by
  rfl

/-- A configuration file whose NEO4J section is missing (C5). -/
def missingNeo4jConfig : ConfigFile :=
  { present := true, sections := [("GITLAB", ["token"])] }

/-- A configuration file carrying every required section and parameter
(C5). -/
def fullConfig : ConfigFile :=
  { present := true, sections := VALID_CONFIG }

/--
C5 counterexample: with two configuration files, the first invalid (missing
NEO4J section) and the second fully valid, the driver loop raises on the
first and processes nothing further — the valid second configuration
contributes no pipeline trace, refuting the claim that the remaining
configuration files are still processed.
-/
theorem configuration_error_not_isolated :
    get_config fullConfig = Except.ok fullConfig ∧
    run_main [missingNeo4jConfig, fullConfig] =
      ([], some "Section NEO4J is missing") := by
  exact ⟨rfl, rfl⟩

/--
C5 amended: a missing required file, section or key raises a
`ConfigurationException` before any pipeline of that configuration executes,
and the uncaught exception aborts the whole batch at that point:
configurations before the failing one are fully processed, the failing one
contributes no pipeline events, and the remaining configuration files are
not processed.
-/
theorem configuration_error_aborts_batch (l1 l2 : List ConfigFile)
    (c : ConfigFile) (e : String)
    (h1 : ∀ c2 ∈ l1, get_config c2 = Except.ok c2)
    (h2 : get_config c = Except.error e) :
    run_main (l1 ++ c :: l2) =
      (l1.map (fun _ => process_config_trace), some e) := by
  induction l1 with
  | nil =>
    simp [run_main, h2]
  | cons a t ih =>
    have ha : get_config a = Except.ok a := h1 a (by simp)
    have iht := ih (fun x hx => h1 x (by simp [hx]))
    simp [run_main, ha, iht]

/-- Witness for the amended C5: a valid configuration before the invalid one
is processed, the valid one after it is not. -/
theorem configuration_error_aborts_batch_witness :
    run_main [fullConfig, missingNeo4jConfig, fullConfig] =
      ([process_config_trace], some "Section NEO4J is missing") :=
  configuration_error_aborts_batch [fullConfig] [fullConfig]
    missingNeo4jConfig "Section NEO4J is missing"
    (by
      intro c2 h
      rw [List.mem_singleton] at h
      subst h
      rfl)
    (by rfl)

/--
C6: during MergeRequest transform, the `is_related` (IS_RELATED) edge to an
issue is created exactly when the source branch matches the anchored pattern
digits-dash-rest (group 1 the digits) and an Issue node whose `iid` equals
the captured numeric prefix exists in the graph.  A branch without such a
prefix, e.g. "fixbug", produces no edge; the fragment is a total function,
so no error is raised.  With an Issue of `iid` 42 in the graph, branch
"42-fix-bug" links exactly that issue.
-/
theorem mr_is_related_from_branch (g : Graph) (b : String) :
    (mr_branch_issue_step g [] b ≠ [] ↔
      ∃ iid, branch_issue_iid b = some iid ∧
        (NeoGraphObject.get IssueClass g [("iid", Value.int iid)]).isSome) ∧
    mr_branch_issue_step g [] "fixbug" = [] ∧
    mr_branch_issue_step
      ⟨[{ label := "Issue",
          props := [("id", Value.int 100), ("iid", Value.int 42)] }]⟩
      [] "42-fix-bug" =
      [{ label := "Issue",
         props := [("id", Value.int 100), ("iid", Value.int 42)] }] := by
  refine ⟨?_, ?_, by rfl⟩
  · cases hb : branch_issue_iid b with
    | none =>
      simp [mr_branch_issue_step, mr_issue_from_branch, hb]
    | some iid =>
      cases hg : NeoGraphObject.get IssueClass g [("iid", Value.int iid)] with
      | none =>
        simp [mr_branch_issue_step, mr_issue_from_branch, hb, hg]
      | some node =>
        simp [mr_branch_issue_step, mr_issue_from_branch, hb, hg, updateRel]
  · have hb : branch_issue_iid "fixbug" = none := by rfl
    simp [mr_branch_issue_step, mr_issue_from_branch, hb]

/-- A graph whose only node is a Project named "Jane Doe Project" — no User
node exists (C7). -/
def projectOnlyGraph : Graph :=
  ⟨[{ label := "Project",
      props := [("id", Value.int 9),
                ("name", Value.str "Jane Doe Project")] }]⟩

/-- A raw commit record with author name "Jane Doe" (C7). -/
def commitAttrsJane : Dict :=
  [("id", Value.str "abc"), ("author_name", Value.str "Jane Doe")]

/--
C7 counterexample: in a graph with no User node at all — so both of the
claim's User lookups (full name, then surname) fail — the Commit transform
still creates an IS_AUTHOR edge, because `_find_user` calls the node matcher
without any label restriction and here matches the Project node whose name
contains "Jane Doe".  The claim's "if both lookups fail, no IS_AUTHOR edge
is created" is therefore false on this input.
-/
theorem commit_author_match_not_restricted_to_users :
    projectOnlyGraph.nodes.map Node.label = ["Project"] ∧
    commit_transform_one projectOnlyGraph commitAttrsJane [] =
      Except.ok
        ({ node := { label := "Commit", props := commitAttrsJane },
           is_author :=
             [{ label := "Project",
                props := [("id", Value.int 9),
                          ("name", Value.str "Jane Doe Project")] }],
           is_committer := [],
           has_parent := [] },
         ⟨projectOnlyGraph.nodes ++
           [{ label := "Commit", props := commitAttrsJane }]⟩) := by
  exact ⟨rfl, rfl⟩

/-- A graph whose only node is the User "Jane Doe" (C7). -/
def janeUserGraph : Graph :=
  ⟨[{ label := "User",
      props := [("id", Value.int 1), ("name", Value.str "Jane Doe")] }]⟩

/-- A graph whose only node is the User "John Doe" (C7). -/
def johnUserGraph : Graph :=
  ⟨[{ label := "User",
      props := [("id", Value.int 2), ("name", Value.str "John Doe")] }]⟩

/-- A raw commit record with author name "Some Doe" (C7). -/
def commitAttrsSomeDoe : Dict :=
  [("id", Value.str "def"), ("author_name", Value.str "Some Doe")]

/--
C7 amended: commit author/committer resolution first looks for a node of ANY
label (not only User nodes) whose `name` property contains the full author
name; on a miss it falls back to a node whose name contains the last
whitespace-separated token; if both lookups fail, no IS_AUTHOR/IS_COMMITTER
edge is created.  When the only nodes with matching names are User nodes
this realizes the claimed behavior: with User "Jane Doe" and author name
"Jane Doe" the full-name containment match links that User, and with only
"John Doe" present and author name "Some Doe" the surname fallback links
"John Doe".
-/
theorem commit_author_resolution (g : Graph) (s : String) :
    (∀ n, NeoGraphObject.find g s = some n →
      (find_user g (some s)).1 = FindUserResult.found n) ∧
    (∀ t n, NeoGraphObject.find g s = none →
      (split_ws s.toList).getLast? = some t →
      NeoGraphObject.find g (String.mk t) = some n →
      (find_user g (some s)).1 = FindUserResult.found n) ∧
    (∀ t, NeoGraphObject.find g s = none →
      (split_ws s.toList).getLast? = some t →
      NeoGraphObject.find g (String.mk t) = none →
      (find_user g (some s)).1 = FindUserResult.notFound) ∧
    (∀ v, (find_user g (asStr v)).1 = FindUserResult.notFound →
      author_edges g v = Except.ok []) ∧
    commit_transform_one janeUserGraph commitAttrsJane [] =
      Except.ok
        ({ node := { label := "Commit", props := commitAttrsJane },
           is_author :=
             [{ label := "User",
                props := [("id", Value.int 1),
                          ("name", Value.str "Jane Doe")] }],
           is_committer := [],
           has_parent := [] },
         ⟨janeUserGraph.nodes ++
           [{ label := "Commit", props := commitAttrsJane }]⟩) ∧
    commit_transform_one johnUserGraph commitAttrsSomeDoe [] =
      Except.ok
        ({ node := { label := "Commit", props := commitAttrsSomeDoe },
           is_author :=
             [{ label := "User",
                props := [("id", Value.int 2),
                          ("name", Value.str "John Doe")] }],
           is_committer := [],
           has_parent := [] },
         ⟨johnUserGraph.nodes ++
           [{ label := "Commit", props := commitAttrsSomeDoe }]⟩) := by
  refine ⟨?_, ?_, ?_, ?_, rfl, rfl⟩
  · intro n hfind
    simp [find_user, hfind]
  · intro t n hmiss hlast hsurname
    rw [String.toList] at hlast
    simp [find_user, hmiss, hlast, hsurname]
  · intro t hmiss hlast hsurname
    rw [String.toList] at hlast
    simp [find_user, hmiss, hlast, hsurname]
  · intro v hnf
    simp [author_edges, hnf]

/-- Witness for the amended C7: the surname fallback branch at a concrete
input — author "Some Doe" against the graph holding only User "John Doe". -/
theorem commit_author_resolution_witness :
    (find_user johnUserGraph (some "Some Doe")).1 =
      FindUserResult.found
        { label := "User",
          props := [("id", Value.int 2), ("name", Value.str "John Doe")] } :=
  (commit_author_resolution johnUserGraph "Some Doe").2.1
    "Doe".toList
    { label := "User",
      props := [("id", Value.int 2), ("name", Value.str "John Doe")] }
    (by rfl) (by rfl) (by rfl)

theorem foldr_split_ws_step_all_nil :
    ∀ cs : List Char, cs.all Char.isWhitespace = true →
      ∀ t ∈ cs.foldr split_ws_step [], t = []
  | [], _ => by intro t ht; simp at ht
  | c :: cs, h => by
    rw [List.all_cons, Bool.and_eq_true] at h
    intro t ht
    rw [List.foldr_cons, split_ws_step.eq_def, if_pos h.1, List.mem_cons] at ht
    cases ht with
    | inl he => exact he
    | inr hm => exact foldr_split_ws_step_all_nil cs h.2 t hm

/-- Python `"   ".split()` is empty: a whitespace-only string yields no
tokens. -/
theorem split_ws_all_whitespace (cs : List Char)
    (h : cs.all Char.isWhitespace = true) : split_ws cs = [] := by
  unfold split_ws
  rw [List.filter_eq_nil_iff]
  intro t ht
  rw [foldr_split_ws_step_all_nil cs h t ht]
  simp

/--
C10: `_find_user` returns None without querying the matcher when the name
argument is None; but a non-None name consisting only of whitespace (no
whitespace-separated tokens) that yields no full-name containment match
reaches `name.split()[-1]` on an empty list and raises IndexError, so
`CommitPipeline.transform_data` is not total: a commit whose author name is
whitespace-only makes the transform raise, as the concrete run shows.
-/
theorem find_user_whitespace_index_error (g : Graph) (s : String)
    (hws : s.toList.all Char.isWhitespace = true)
    (hmiss : NeoGraphObject.find g s = none) :
    find_user g none = (FindUserResult.notFound, 0) ∧
    find_user g (some s) = (FindUserResult.indexError, 1) ∧
    commit_transform_one ⟨[]⟩
      [("id", Value.str "c1"), ("author_name", Value.str "   ")] [] =
      Except.error "IndexError: list index out of range" := by
  refine ⟨rfl, ?_, rfl⟩
  have hsplit : split_ws s.toList = [] := split_ws_all_whitespace s.toList hws
  rw [String.toList] at hsplit
  simp [find_user, hmiss, hsplit]

/-- Witness for C10: the space-only author name " " on the empty graph makes
`_find_user` raise IndexError after one matcher query. -/
theorem find_user_whitespace_index_error_witness :
    find_user ⟨[]⟩ (some " ") = (FindUserResult.indexError, 1) :=
  (find_user_whitespace_index_error ⟨[]⟩ " " (by decide) (by rfl)).2.1
